import Mathlib

/-!
Verification development for the circuitcraft dual-direction dataflow engine.

The definitions below are a shallow embedding of the Python modules
`src/circuitcraft/perch.py`, `mover.py`, `circuit_board.py` and `eulerian.py`.
Python dictionaries are modelled as insertion-ordered association lists,
Python values as the inductive `PyVal`, raised exceptions as explicit error
values, and user supplied transform callables as Lean functions that may
fail (a failure models the callable raising an exception).
-/

namespace CircuitCraft

/-- Model of a Python value as it flows through the engine: the placeholder
None, booleans, integers, strings, numeric arrays, and one level of keyed
bundle (a dict mapping string keys to values). -/
inductive PyVal where
  | none
  | bool (b : Bool)
  | int (n : Int)
  | str (s : String)
  | arr (xs : List Int)
  | dict (entries : List (String × PyVal))
deriving Repr

/-- Structural equality on values, the model of the Python comparison used by
the change detection in the solver convergence loops. -/
def PyVal.beq : PyVal → PyVal → Bool
  | .none, .none => true
  | .bool a, .bool b => a == b
  | .int a, .int b => a == b
  | .str a, .str b => a == b
  | .arr a, .arr b => a == b
  | .dict a, .dict b => beqEntries a b
  | _, _ => false
where
  beqEntries : List (String × PyVal) → List (String × PyVal) → Bool
    | [], [] => true
    | (k, v) :: xs, (k2, v2) :: ys => k == k2 && PyVal.beq v v2 && beqEntries xs ys
    | _, _ => false

instance : BEq PyVal := ⟨PyVal.beq⟩

/-- Errors raised by the engine. Each constructor corresponds to one raise
site (or one exception class) in the Python source; user transform callables
raising an arbitrary exception are collapsed into `userExc`. -/
inductive PyErr where
  | duplicatePerch (name : String)
  | unknownPerch (name : String)
  | badEdgeType (edgeType : String)
  | ambiguousSourceKeys
  | keyNotFound (perch key : String)
  | moverNotFound (source target edgeType : String)
  | noCompMethod (source target edgeType : String)
  | noMapDefined
  | noBackwardMovers
  | noPerchHasComp
  | forwardNoComp
  | backwardGraphEmpty
  | cyclicBackwardGraph
  | noInitialForwardPerch
  | nxUnfeasibleForward
  | notFinalized
  | notSolvable
  | typeErrorUnexpectedKwarg (kwarg : String)
  | userExc
deriving DecidableEq, Repr

/-- Association list lookup, the model of reading a Python dict entry. -/
def alistGet (entries : List (String × PyVal)) (key : String) : Option PyVal :=
  match entries.find? (fun kv => kv.1 == key) with
  | some kv => some kv.2
  | Option.none => Option.none

/-- Does the dict contain the key. -/
def alistHas (entries : List (String × PyVal)) (key : String) : Bool :=
  entries.any (fun kv => kv.1 == key)

/-- Overwrite the value stored at an existing key, keeping insertion order;
appends when the key is absent (Python dict assignment). -/
def alistSet (entries : List (String × PyVal)) (key : String) (v : PyVal) :
    List (String × PyVal) :=
  if alistHas entries key then
    entries.map (fun kv => if kv.1 == key then (kv.1, v) else kv)
  else
    entries ++ [(key, v)]

/-- Insert a name into a list treated as a set (Python set.add). -/
def setAdd (s : List String) (x : String) : List String :=
  if s.contains x then s else s ++ [x]

/-- Remove a name from a list treated as a set (Python set.discard). -/
def setDiscard (s : List String) (x : String) : List String :=
  s.filter (fun y => y != x)

/-- Model of `Perch` from perch.py: a named, insertion-ordered mapping from
string keys to values plus the set of keys holding a non-None value. -/
structure Perch where
  name : String
  data : List (String × PyVal)
  initializedKeys : List String
deriving Repr

/-- Append an uninitialized slot for a reserved key when it is absent (the
two if-blocks of `Perch.__init__`). -/
def ensureKey (d : List (String × PyVal)) (k : String) : List (String × PyVal) :=
  if alistHas d k then d else d ++ [(k, PyVal.none)]

/-- Model of `Perch.__init__`: the supplied schema (a falsy/empty mapping
falls back to the default, mirroring the Python `or`), with the reserved
keys up and down appended when absent, and the initialized set taken to be
the keys whose value is not None. -/
def Perch.init (name : String) (dataTypes : Option (List (String × PyVal))) : Perch :=
  let base :=
    match dataTypes with
    | some d => if d.isEmpty then [("up", PyVal.none), ("down", PyVal.none)] else d
    | Option.none => [("up", PyVal.none), ("down", PyVal.none)]
  let d2 := ensureKey (ensureKey base "up") "down"
  { name := name
    data := d2
    initializedKeys := (d2.filter (fun kv => !(kv.2 == PyVal.none))).map (fun kv => kv.1) }

/-- Model of the `Perch.up` property read: `self.data.get("up")`, returning
None when the key is absent. The deprecated `comp` property is an alias. -/
def Perch.upVal (p : Perch) : PyVal :=
  (alistGet p.data "up").getD PyVal.none

/-- Model of the `Perch.down` property read (alias `sim`). -/
def Perch.downVal (p : Perch) : PyVal :=
  (alistGet p.data "down").getD PyVal.none

/-- Model of `Perch.get_data`: raises KeyError when the key is not part of
the schema, otherwise returns the stored value. -/
def Perch.getData (p : Perch) (key : String) : Except PyErr PyVal :=
  if alistHas p.data key then
    Except.ok ((alistGet p.data key).getD PyVal.none)
  else
    Except.error (PyErr.keyNotFound p.name key)

/-- Model of `Perch.set_data`: raises KeyError when the key is not part of
the schema, otherwise stores the value and marks the key initialized. -/
def Perch.setData (p : Perch) (key : String) (v : PyVal) : Except PyErr Perch :=
  if alistHas p.data key then
    Except.ok { p with
      data := alistSet p.data key v
      initializedKeys := setAdd p.initializedKeys key }
  else
    Except.error (PyErr.keyNotFound p.name key)

/-- Model of `Perch.add_data_key`: raises when the key already exists,
otherwise appends the slot and marks it initialized when the initial value
is not None. -/
def Perch.addDataKey (p : Perch) (key : String) (initialValue : PyVal) : Except PyErr Perch :=
  if alistHas p.data key then
    Except.error (PyErr.keyNotFound p.name key)
  else
    Except.ok { p with
      data := p.data ++ [(key, initialValue)]
      initializedKeys :=
        if initialValue == PyVal.none then p.initializedKeys
        else setAdd p.initializedKeys key }

/-- One step of `Perch.clear_data`: reset an existing key to None and drop
it from the initialized set; a key absent from the schema is silently
skipped. -/
def Perch.clearStep (q : Perch) (k : String) : Perch :=
  if alistHas q.data k then
    { q with
      data := alistSet q.data k PyVal.none
      initializedKeys := setDiscard q.initializedKeys k }
  else q

/-- Model of `Perch.clear_data`: resets the listed keys (all keys when none
are listed) to None, removing them from the initialized set. -/
def Perch.clearData (p : Perch) (keys : Option (List String)) : Perch :=
  (keys.getD (p.data.map (fun kv => kv.1))).foldl Perch.clearStep p

/-- Model of `Perch.is_initialized`. -/
def Perch.isInitialized (p : Perch) (keys : Option (List String)) : Bool :=
  let ks := keys.getD (p.data.map (fun kv => kv.1))
  ks.all (fun k => p.initializedKeys.contains k)

/-- Model of the `Perch.up` property setter: dict assignment (creates the
key when absent) plus marking the key initialized. -/
def Perch.setUp (p : Perch) (v : PyVal) : Perch :=
  { p with data := alistSet p.data "up" v, initializedKeys := setAdd p.initializedKeys "up" }

/-- Model of the `Perch.down` property setter. -/
def Perch.setDown (p : Perch) (v : PyVal) : Perch :=
  { p with data := alistSet p.data "down" v, initializedKeys := setAdd p.initializedKeys "down" }

/-- One public mutation of a perch, for stating invariants over every state
reachable through the perch interface. A failing operation raises before
mutating, leaving the perch unchanged. -/
inductive PerchOp where
  | setData (key : String) (v : PyVal)
  | addDataKey (key : String) (initialValue : PyVal)
  | clearData (keys : Option (List String))
  | setUp (v : PyVal)
  | setDown (v : PyVal)

/-- Apply one mutation; a raised exception leaves the perch unchanged since
the involved methods validate before writing. -/
def Perch.applyOp (p : Perch) (op : PerchOp) : Perch :=
  match op with
  | .setData k v => match p.setData k v with | .ok q => q | .error _ => p
  | .addDataKey k v => match p.addDataKey k v with | .ok q => q | .error _ => p
  | .clearData ks => p.clearData ks
  | .setUp v => p.setUp v
  | .setDown v => p.setDown v

/-- Apply a sequence of public perch mutations. -/
def Perch.applyOps (p : Perch) (ops : List PerchOp) : Perch :=
  ops.foldl Perch.applyOp p

/-- A transform callable attached to a mover: a function from an input value
(or keyed bundle) to an output value, which may raise (modelled by the error
branch). -/
def Comp := PyVal → Except Unit PyVal

/-- Model of `Mover` from mover.py. Field names follow the source. The three
declarative dictionaries default to the empty dict, matching the Python
`x or {}` fallbacks in the constructor. -/
structure Mover where
  source_name : String
  target_name : String
  edge_type : String
  map_data : List (String × PyVal)
  parameters : List (String × PyVal)
  numerical_hyperparameters : List (String × PyVal)
  comp : Option Comp
  source_keys : List String
  target_key : Option String

/-- Model of the `Mover.has_map` property: `bool(self.map_data)`. -/
def Mover.has_map (m : Mover) : Bool := !m.map_data.isEmpty

/-- Model of the `Mover.has_comp` property. -/
def Mover.has_comp (m : Mover) : Bool := m.comp.isSome

/-- The argument dictionary handed to a transform factory by
`Mover.create_comp_from_map`. -/
def Mover.factoryArg (m : Mover) : PyVal :=
  PyVal.dict
    [("map", PyVal.dict m.map_data),
     ("parameters", PyVal.dict m.parameters),
     ("numerical_hyperparameters", PyVal.dict m.numerical_hyperparameters)]

/-- Model of `Mover.create_comp_from_map`: raises when no map is defined,
otherwise stores the factory result as the comp. A Python factory may return
None, which leaves the mover without an executable comp, hence the factory
is modelled as returning an optional callable. -/
def Mover.create_comp_from_map (m : Mover) (factory : PyVal → Option Comp) :
    Except PyErr Mover :=
  if m.has_map then
    Except.ok { m with comp := factory m.factoryArg }
  else
    Except.error PyErr.noMapDefined

/-- Model of `Mover.execute`: raises when no comp is attached, otherwise
applies the comp (whose own exception propagates as `userExc`). -/
def Mover.execute (m : Mover) (data : PyVal) : Except PyErr PyVal :=
  match m.comp with
  | Option.none => Except.error (PyErr.noCompMethod m.source_name m.target_name m.edge_type)
  | some f =>
    match f data with
    | Except.ok v => Except.ok v
    | Except.error _ => Except.error PyErr.userExc

/-- One of the two `networkx.DiGraph` structures owned by a board: nodes in
insertion order and directed edges carrying their mover attribute. -/
structure DiGraph where
  nodes : List String
  edges : List (String × String × Mover)

/-- Model of `DiGraph.add_node`: a repeated name is a no-op. -/
def DiGraph.addNode (g : DiGraph) (n : String) : DiGraph :=
  if g.nodes.contains n then g else { g with nodes := g.nodes ++ [n] }

/-- Does the graph contain the directed edge. -/
def DiGraph.hasEdge (g : DiGraph) (s t : String) : Bool :=
  g.edges.any (fun e => e.1 == s && e.2.1 == t)

/-- Model of `DiGraph.add_edge` with a mover attribute: a repeated edge has
its attribute replaced; missing endpoints are appended as nodes. -/
def DiGraph.addEdge (g : DiGraph) (s t : String) (m : Mover) : DiGraph :=
  let g1 := (g.addNode s).addNode t
  if g1.hasEdge s t then
    { g1 with edges := g1.edges.map (fun e => if e.1 == s && e.2.1 == t then (s, t, m) else e) }
  else
    { g1 with edges := g1.edges ++ [(s, t, m)] }

/-- Retrieve the mover attribute of an edge. -/
def DiGraph.getMover (g : DiGraph) (s t : String) : Option Mover :=
  match g.edges.find? (fun e => e.1 == s && e.2.1 == t) with
  | some e => some e.2.2
  | Option.none => Option.none

/-- Number of incoming edges of a node. -/
def DiGraph.inDegree (g : DiGraph) (n : String) : Nat :=
  (g.edges.filter (fun e => e.2.1 == n)).length

/-- Number of outgoing edges of a node. -/
def DiGraph.outDegree (g : DiGraph) (n : String) : Nat :=
  (g.edges.filter (fun e => e.1 == n)).length

/-- The plain directed edge pairs of a graph, forgetting mover attributes. -/
def DiGraph.edgePairs (g : DiGraph) : List (String × String) :=
  g.edges.map (fun e => (e.1, e.2.1))

/-- Does node `n` have an incoming edge whose source is still in
`remaining`. -/
def hasIncomingFrom (edges : List (String × String)) (remaining : List String)
    (n : String) : Bool :=
  edges.any (fun e => e.2 == n && remaining.contains e.1)

/-- Kahn style topological sort worker: repeatedly remove a node without
incoming edges from the remaining set; fails when none exists. This models
`networkx.topological_sort` up to tie-breaking order among ready nodes
(which no solver result in this development depends on); it succeeds exactly
on acyclic graphs. -/
def kahnAux (edges : List (String × String)) :
    Nat → List String → List String → Option (List String)
  | 0, remaining, acc => if remaining.isEmpty then some acc.reverse else Option.none
  | fuel + 1, remaining, acc =>
    if remaining.isEmpty then some acc.reverse
    else
      match remaining.find? (fun n => !hasIncomingFrom edges remaining n) with
      | some n => kahnAux edges fuel (remaining.erase n) (n :: acc)
      | Option.none => Option.none

/-- Topological sort of the node list along the edge list; `Option.none`
models `networkx.NetworkXUnfeasible` (the graph has a cycle). -/
def topoSort (nodes : List String) (edges : List (String × String)) :
    Option (List String) :=
  kahnAux edges nodes.length nodes []

/-- Model of `CircuitBoard` from circuit_board.py: the perch dictionary, the
two independent directed edge structures, and the seven lifecycle flags. -/
structure CircuitBoard where
  name : String
  perches : List (String × Perch)
  backward_graph : DiGraph
  forward_graph : DiGraph
  has_empty_perches : Bool
  has_model : Bool
  movers_backward_exist : Bool
  is_portable : Bool
  is_solvable : Bool
  is_solved : Bool
  is_simulated : Bool

/-- Model of `CircuitBoard.__init__`. -/
def CircuitBoard.init (name : String) : CircuitBoard :=
  { name := name
    perches := []
    backward_graph := { nodes := [], edges := [] }
    forward_graph := { nodes := [], edges := [] }
    has_empty_perches := true
    has_model := false
    movers_backward_exist := false
    is_portable := false
    is_solvable := false
    is_solved := false
    is_simulated := false }

/-- Look up a perch by name (`self.perches[name]` minus the raise). -/
def CircuitBoard.getPerch? (b : CircuitBoard) (n : String) : Option Perch :=
  match b.perches.find? (fun kv => kv.1 == n) with
  | some kv => some kv.2
  | Option.none => Option.none

/-- Store a perch back under its name, keeping dictionary order. -/
def CircuitBoard.putPerch (b : CircuitBoard) (n : String) (p : Perch) : CircuitBoard :=
  { b with perches := b.perches.map (fun kv => if kv.1 == n then (n, p) else kv) }

/-- Model of `CircuitBoard._get_graph`: raises on an unrecognized edge
type. -/
def CircuitBoard.getGraph (b : CircuitBoard) (edge_type : String) : Except PyErr DiGraph :=
  if edge_type == "forward" then Except.ok b.forward_graph
  else if edge_type == "backward" then Except.ok b.backward_graph
  else Except.error (PyErr.badEdgeType edge_type)

/-- Write back the graph selected by an edge type (the Python methods mutate
the alias returned by `_get_graph`). -/
def CircuitBoard.putGraph (b : CircuitBoard) (edge_type : String) (g : DiGraph) : CircuitBoard :=
  if edge_type == "forward" then { b with forward_graph := g }
  else if edge_type == "backward" then { b with backward_graph := g }
  else b

/-- Model of `CircuitBoard.add_perch`: rejects duplicate names, registers
the perch as a node of both graphs, and clears the empty-perches flag when
the perch already carries an up or down value. -/
def CircuitBoard.addPerch (b : CircuitBoard) (p : Perch) : Except PyErr CircuitBoard :=
  if b.perches.any (fun kv => kv.1 == p.name) then
    Except.error (PyErr.duplicatePerch p.name)
  else
    let b1 := { b with
      perches := b.perches ++ [(p.name, p)]
      backward_graph := b.backward_graph.addNode p.name
      forward_graph := b.forward_graph.addNode p.name }
    if !(p.upVal == PyVal.none) || !(p.downVal == PyVal.none) then
      Except.ok { b1 with has_empty_perches := false }
    else
      Except.ok b1

/-- Model of `CircuitBoard.add_mover`. Checks endpoints, resolves the
deprecated singular source key against the plural form, applies the
direction-convention defaults (backward: read and write comp; forward: read
sim, write sim), stores the mover on the selected graph, records that a
backward mover exists, and invalidates the finalized-model flag. -/
def CircuitBoard.addMover (b : CircuitBoard) (source_name target_name : String)
    (map_data parameters numerical_hyperparameters : Option (List (String × PyVal)))
    (source_key : Option String) (source_keys : Option (List String))
    (target_key : Option String) (edge_type : String) : Except PyErr CircuitBoard := do
  if !(b.perches.any (fun kv => kv.1 == source_name)) then
    throw (PyErr.unknownPerch source_name)
  if !(b.perches.any (fun kv => kv.1 == target_name)) then
    throw (PyErr.unknownPerch target_name)
  let graph ← b.getGraph edge_type
  let source_keys' ←
    match source_key, source_keys with
    | some _, some _ => throw PyErr.ambiguousSourceKeys
    | some k, Option.none => pure (some [k])
    | Option.none, sks => pure sks
  let sks :=
    match source_keys' with
    | some l => l
    | Option.none => if edge_type == "backward" then ["comp"] else ["sim"]
  let tk :=
    match target_key with
    | some k => k
    | Option.none => if edge_type == "backward" then "comp" else "sim"
  let mover : Mover :=
    { source_name := source_name
      target_name := target_name
      edge_type := edge_type
      map_data := map_data.getD []
      parameters := parameters.getD []
      numerical_hyperparameters := numerical_hyperparameters.getD []
      comp := Option.none
      source_keys := sks
      target_key := some tk }
  let b1 := b.putGraph edge_type (graph.addEdge source_name target_name mover)
  let b2 := if edge_type == "backward" then { b1 with movers_backward_exist := true } else b1
  pure { b2 with has_model := false }

/-- Model of `CircuitBoard.set_mover_comp`: attaches an executable comp to
an existing mover edge. -/
def CircuitBoard.setMoverComp (b : CircuitBoard) (source_name target_name : String)
    (edge_type : String) (f : Comp) : Except PyErr CircuitBoard := do
  let graph ← b.getGraph edge_type
  if !(graph.hasEdge source_name target_name) then
    throw (PyErr.moverNotFound source_name target_name edge_type)
  let g2 := { graph with
    edges := graph.edges.map (fun e =>
      if e.1 == source_name && e.2.1 == target_name then
        (e.1, e.2.1, { e.2.2 with comp := some f })
      else e) }
  pure (b.putGraph edge_type g2)

/-- Is any perch holding an up (comp) value (`any(perch.comp is not None ...)`). -/
def CircuitBoard.anyPerchComp (b : CircuitBoard) : Bool :=
  b.perches.any (fun kv => !(kv.2.upVal == PyVal.none))

/-- Does every perch hold an up (comp) value. -/
def CircuitBoard.allPerchComp (b : CircuitBoard) : Bool :=
  b.perches.all (fun kv => !(kv.2.upVal == PyVal.none))

/-- Model of `CircuitBoard._get_terminal_perches`: nodes with no outgoing
edge in the selected graph. -/
def CircuitBoard.getTerminalPerches (b : CircuitBoard) (edge_type : String) : List String :=
  match b.getGraph edge_type with
  | Except.ok g => g.nodes.filter (fun n => g.outDegree n == 0)
  | Except.error _ => []

/-- Model of `CircuitBoard._get_initial_perches`: nodes with no incoming
edge in the selected graph. -/
def CircuitBoard.getInitialPerches (b : CircuitBoard) (edge_type : String) : List String :=
  match b.getGraph edge_type with
  | Except.ok g => g.nodes.filter (fun n => g.inDegree n == 0)
  | Except.error _ => []

/-- Does some forward-initial perch (no incoming forward edge) hold a down
value. -/
def CircuitBoard.forwardInitHasDown (b : CircuitBoard) : Bool :=
  (b.getInitialPerches "forward").any (fun n =>
    match b.getPerch? n with
    | some p => !(p.downVal == PyVal.none)
    | Option.none => false)

/-- Model of `CircuitBoard._check_solvability`: leaves the flag untouched
when a precondition fails, and sets it to true (never to false) when the
model is finalized and the backward and forward data requirements hold. -/
def CircuitBoard.checkSolvability (b : CircuitBoard) : CircuitBoard :=
  if !b.has_model then b
  else if b.movers_backward_exist && !b.anyPerchComp then b
  else if !b.forward_graph.edges.isEmpty && !b.forwardInitHasDown then b
  else { b with is_solvable := true }

/-- Model of `CircuitBoard.finalize_model`. -/
def CircuitBoard.finalizeModel (b : CircuitBoard) : CircuitBoard :=
  CircuitBoard.checkSolvability { b with has_model := true }

/-- Does this mover still need a comp derived from its map. -/
def moverNeedsComp (m : Mover) : Bool := m.has_map && !m.has_comp

/-- Model of `CircuitBoard._check_portability`: scan both edge sets and
clear the flag on the first mover with a map but no comp, otherwise set
it. -/
def CircuitBoard.checkPortability (b : CircuitBoard) : CircuitBoard :=
  match (b.backward_graph.edges ++ b.forward_graph.edges).find?
      (fun e => moverNeedsComp e.2.2) with
  | some _ => { b with is_portable := false }
  | Option.none => { b with is_portable := true }

/-- The per-mover step of `CircuitBoard.create_comps_from_maps`: derive a
comp from the map exactly when the mover has a map but no comp yet. -/
def deriveStep (factory : PyVal → Option Comp) (e : String × String × Mover) :
    String × String × Mover :=
  if moverNeedsComp e.2.2 then
    (e.1, e.2.1, { e.2.2 with comp := factory e.2.2.factoryArg })
  else e

/-- Model of `CircuitBoard.create_comps_from_maps`: process the backward
movers, then the forward movers, then refresh the portability flag. -/
def CircuitBoard.createCompsFromMaps (b : CircuitBoard) (factory : PyVal → Option Comp) :
    CircuitBoard :=
  CircuitBoard.checkPortability { b with
    backward_graph := { b.backward_graph with
      edges := b.backward_graph.edges.map (deriveStep factory) }
    forward_graph := { b.forward_graph with
      edges := b.forward_graph.edges.map (deriveStep factory) } }

/-- Python truthiness of an optional string (`if mover.target_key:`): None
and the empty string are falsy. -/
def optStrTruthy (s : Option String) : Bool :=
  match s with
  | some v => v != ""
  | Option.none => false

/-- The change detection used by both convergence loops. The Python cascade
(None asymmetry, array-aware equality, `__eq__`, identity fallback) amounts
to structural disequality on the modelled value universe. -/
def valueChanged (previous current : PyVal) : Bool :=
  !(previous == current)

/-- Read the listed source keys off a perch into a keyed bundle; the first
missing key raises. -/
def readSourceKeys (p : Perch) : List String → Except PyErr (List (String × PyVal))
  | [] => Except.ok []
  | k :: ks =>
    match p.getData k with
    | Except.error e => Except.error e
    | Except.ok v =>
      match readSourceKeys p ks with
      | Except.error e => Except.error e
      | Except.ok rest => Except.ok ((k, v) :: rest)

/-- Write a dict result into the target perch: each result key present in
the target schema is written (the guard makes the write infallible). -/
def writeDictResult (target_perch : Perch) (rentries : List (String × PyVal)) : Perch :=
  rentries.foldl
    (fun (tp : Perch) kv =>
      if alistHas tp.data kv.1 then
        match tp.setData kv.1 kv.2 with
        | Except.ok q => q
        | Except.error _ => tp
      else tp)
    target_perch

/-- The write-back step of `execute_mover`: a None result writes nothing, a
dict result writes each key present in the target schema, any other result
is written to the declared target key when one is set (truthiness: neither
None nor empty). -/
def applyMoverResult (b : CircuitBoard) (target_name : String) (target_perch : Perch)
    (mover : Mover) (result : PyVal) : Except PyErr (CircuitBoard × PyVal) :=
  match result with
  | PyVal.none =>
    -- nothing to update if the result is None
    Except.ok (b, result)
  | PyVal.dict rentries =>
    Except.ok (b.putPerch target_name (writeDictResult target_perch rentries), result)
  | _ =>
    match mover.target_key with
    | some tk =>
      if tk != "" then
        match target_perch.setData tk result with
        | Except.error e => Except.error e
        | Except.ok tp => Except.ok (b.putPerch target_name tp, result)
      else Except.ok (b, result)
    | Option.none => Except.ok (b, result)

/-- Model of `CircuitBoard.execute_mover`: look up the mover, require a
comp, read the source keys from the source perch (a single key is passed as
the bare value, several as a keyed bundle), run the comp, and write the
result into the target perch via `applyMoverResult`. -/
def CircuitBoard.executeMover (b : CircuitBoard) (source_name target_name : String)
    (edge_type : String) : Except PyErr (CircuitBoard × PyVal) :=
  match b.getGraph edge_type with
  | Except.error e => Except.error e
  | Except.ok graph =>
    if !(graph.hasEdge source_name target_name) then
      Except.error (PyErr.moverNotFound source_name target_name edge_type)
    else
      match b.getPerch? source_name with
      | Option.none => Except.error (PyErr.unknownPerch source_name)
      | some source_perch =>
        match b.getPerch? target_name with
        | Option.none => Except.error (PyErr.unknownPerch target_name)
        | some target_perch =>
          match graph.getMover source_name target_name with
          | Option.none =>
            Except.error (PyErr.moverNotFound source_name target_name edge_type)
          | some mover =>
            if !mover.has_comp then
              Except.error (PyErr.noCompMethod source_name target_name edge_type)
            else
              match readSourceKeys source_perch mover.source_keys with
              | Except.error e => Except.error e
              | Except.ok entries =>
                let input :=
                  if mover.source_keys.length == 1 then (entries.headD ("", PyVal.none)).2
                  else PyVal.dict entries
                match mover.execute input with
                | Except.error e => Except.error e
                | Except.ok result =>
                  applyMoverResult b target_name target_perch mover result

/-- The diagnostic scan at the top of `solve_backward`: for every backward
edge it reads the first source key from the source perch and the target key
from the target perch purely for printing; these reads are outside any
handler, so a missing key raises out of `solve_backward` before any
mutation. -/
def CircuitBoard.backwardDebugScan (b : CircuitBoard) : Except PyErr Unit :=
  b.backward_graph.edges.forM (fun e => do
    let m := e.2.2
    if !m.source_keys.isEmpty then
      match b.getPerch? e.1 with
      | some p => do
        let _ ← p.getData (m.source_keys.headD "")
        pure ()
      | Option.none => throw (PyErr.unknownPerch e.1)
    if optStrTruthy m.target_key then
      match b.getPerch? e.2.1 with
      | some p => do
        let _ ← p.getData ((m.target_key).getD "")
        pure ()
      | Option.none => throw (PyErr.unknownPerch e.2.1)
    pure ())

/-- The eligibility check at the top of the backward loop body: with no
source keys the edge counts as ready, otherwise the first source key is
read (a missing key raises) and compared against None. -/
def sourceHasDataCheck (sp : Perch) (keys : List String) : Except PyErr Bool :=
  if keys.isEmpty then Except.ok true
  else
    match sp.getData (keys.headD "") with
    | Except.error e => Except.error e
    | Except.ok v => Except.ok (!(v == PyVal.none))

/-- Read the declared target key of a mover off the perch registered under
the given name (None when the target key is falsy), the pre- and
post-execution read used by the change detection. -/
def readTargetValue (b : CircuitBoard) (node : String) (m : Mover) : Except PyErr PyVal :=
  if optStrTruthy m.target_key then
    match b.getPerch? node with
    | some p => p.getData ((m.target_key).getD "")
    | Option.none => Except.error (PyErr.unknownPerch node)
  else Except.ok PyVal.none

/-- One sweep of the backward convergence loop over the backward edge list.
An edge whose source lacks its first source key raises (and the sweep
aborts, keeping mutations made so far); an edge whose source value is None
or whose mover has no comp is skipped; an exception inside the guarded
execute block is swallowed and the sweep continues. -/
def CircuitBoard.backwardSweep (b : CircuitBoard) :
    CircuitBoard × Bool × Option PyErr :=
  go b.backward_graph.edges b false
where
  go : List (String × String × Mover) → CircuitBoard → Bool →
      CircuitBoard × Bool × Option PyErr
  | [], b, ch => (b, ch, Option.none)
  | e :: rest, b, ch =>
    match b.getPerch? e.1, b.getPerch? e.2.1 with
    | some sp, some _ =>
      match sourceHasDataCheck sp e.2.2.source_keys with
      | Except.error err => (b, ch, some err)
      | Except.ok false => go rest b ch
      | Except.ok true =>
        if !e.2.2.has_comp then go rest b ch
        else
          match readTargetValue b e.2.1 e.2.2 with
          | Except.error _ => go rest b ch
          | Except.ok previous =>
            match b.executeMover e.1 e.2.1 "backward" with
            | Except.error _ => go rest b ch
            | Except.ok (b2, _) =>
              match readTargetValue b2 e.2.1 e.2.2 with
              | Except.error _ => go rest b2 ch
              | Except.ok current => go rest b2 (ch || valueChanged previous current)
    | _, _ => (b, ch, some (PyErr.unknownPerch e.1))

/-- The bounded convergence driver of `solve_backward` (at most 100 sweeps;
stop early once a sweep changes nothing). -/
def CircuitBoard.backwardLoop : Nat → CircuitBoard → CircuitBoard × Option PyErr
  | 0, b => (b, Option.none)
  | fuel + 1, b =>
    match b.backwardSweep with
    | (b2, _, some err) => (b2, some err)
    | (b2, true, Option.none) => CircuitBoard.backwardLoop fuel b2
    | (b2, false, Option.none) => (b2, Option.none)

/-- The epilogue of `solve_backward`: flag the circuit as solved exactly
when every perch holds an up value after the loop. -/
def finishBackward (b : CircuitBoard) : CircuitBoard × Option PyErr :=
  if b.allPerchComp then ({ b with is_solved := true }, Option.none)
  else (b, Option.none)

/-- Model of `CircuitBoard.solve_backward`. The returned board carries any
mutations made before a raise; every raise site before the convergence loop
leaves the board untouched. Sets the solved flag only when every perch ends
with an up value. -/
def CircuitBoard.solveBackward (b : CircuitBoard) : CircuitBoard × Option PyErr :=
  if !b.movers_backward_exist then (b, some PyErr.noBackwardMovers)
  else if !b.anyPerchComp then (b, some PyErr.noPerchHasComp)
  else
    match topoSort b.backward_graph.nodes b.backward_graph.edgePairs with
    | Option.none => (b, some PyErr.cyclicBackwardGraph)
    | some topo =>
      if topo.isEmpty then (b, some PyErr.backwardGraphEmpty)
      else
        match b.backwardDebugScan with
        | Except.error err => (b, some err)
        | Except.ok _ =>
          match CircuitBoard.backwardLoop 100 b with
          | (b2, some err) => (b2, some err)
          | (b2, Option.none) => finishBackward b2

/-- One sweep of the forward convergence loop: visit the perches in the
fixed topological order, skipping the initial perches on the first sweep
only, and for each perch try every forward predecessor whose down value is
available. The pre-execution read of the target key is outside the guarded
block, so its failure aborts the call; failures inside the guarded execute
block are swallowed. -/
def CircuitBoard.forwardSweep (b : CircuitBoard) (initial : List String)
    (topo : List String) (first : Bool) : CircuitBoard × Bool × Option PyErr :=
  goNodes topo b false
where
  goPreds : List (String × String × Mover) → String → CircuitBoard → Bool →
      CircuitBoard × Bool × Option PyErr
  | [], _, b, ch => (b, ch, Option.none)
  | e :: rest, node, b, ch =>
    match b.getPerch? e.1 with
    | Option.none => (b, ch, some (PyErr.unknownPerch e.1))
    | some pp =>
      if pp.downVal == PyVal.none then goPreds rest node b ch
      else
        if !e.2.2.has_comp then goPreds rest node b ch
        else
          match readTargetValue b node e.2.2 with
          | Except.error err => (b, ch, some err)
          | Except.ok previous =>
            match b.executeMover e.1 node "forward" with
            | Except.error _ => goPreds rest node b ch
            | Except.ok (b2, _) =>
              match readTargetValue b2 node e.2.2 with
              | Except.error _ => goPreds rest node b2 ch
              | Except.ok current =>
                goPreds rest node b2 (ch || valueChanged previous current)
  goNodes : List String → CircuitBoard → Bool → CircuitBoard × Bool × Option PyErr
  | [], b, ch => (b, ch, Option.none)
  | node :: rest, b, ch =>
    if first && initial.contains node then goNodes rest b ch
    else
      let preds := b.forward_graph.edges.filter (fun e => e.2.1 == node)
      if preds.isEmpty then goNodes rest b ch
      else
        match goPreds preds node b ch with
        | (b2, ch2, Option.none) => goNodes rest b2 ch2
        | (b2, ch2, some err) => (b2, ch2, some err)

/-- The bounded convergence driver of `solve_forward`. -/
def CircuitBoard.forwardLoop (initial topo : List String) :
    Nat → Bool → CircuitBoard → CircuitBoard × Option PyErr
  | 0, _, b => (b, Option.none)
  | fuel + 1, first, b =>
    match b.forwardSweep initial topo first with
    | (b2, _, some err) => (b2, some err)
    | (b2, true, Option.none) => CircuitBoard.forwardLoop initial topo fuel false b2
    | (b2, false, Option.none) => (b2, Option.none)

/-- Model of `CircuitBoard.solve_forward`. A cyclic forward graph raises
NetworkXUnfeasible, which the except clause (catching only NetworkXError)
does not intercept, so it escapes unchanged. Sets the simulated flag once
any perch holds a down value. -/
def CircuitBoard.solveForward (b : CircuitBoard) : CircuitBoard × Option PyErr :=
  if !b.anyPerchComp then (b, some PyErr.forwardNoComp)
  else
    let initial := (b.perches.filter (fun kv =>
      !(kv.2.upVal == PyVal.none) && !(kv.2.downVal == PyVal.none))).map (fun kv => kv.1)
    if initial.isEmpty then (b, some PyErr.noInitialForwardPerch)
    else
      match topoSort b.forward_graph.nodes b.forward_graph.edgePairs with
      | Option.none => (b, some PyErr.nxUnfeasibleForward)
      | some topo =>
        match CircuitBoard.forwardLoop initial topo 100 true b with
        | (b2, some err) => (b2, some err)
        | (b2, Option.none) =>
          if b2.perches.any (fun kv => !(kv.2.downVal == PyVal.none)) then
            ({ b2 with is_simulated := true }, Option.none)
          else (b2, Option.none)

/-- The outcome of a call to `CircuitBoard.solve`: either an exception
reaches the caller or the call returns a boolean. -/
inductive SolveOutcome where
  | raised (e : PyErr)
  | returned (success : Bool)
deriving DecidableEq, Repr

/-- Model of `CircuitBoard.solve`: raises on an unfinalized or unsolvable
circuit, converts any exception from either pass into a False return, and
otherwise sets the solved flag unconditionally and returns True. -/
def CircuitBoard.solve (b : CircuitBoard) : CircuitBoard × SolveOutcome :=
  if !b.has_model then (b, SolveOutcome.raised PyErr.notFinalized)
  else if !b.is_solvable then (b, SolveOutcome.raised PyErr.notSolvable)
  else
    match b.solveBackward with
    | (b1, some _) => (b1, SolveOutcome.returned false)
    | (b1, Option.none) =>
      match b1.solveForward with
      | (b2, some _) => (b2, SolveOutcome.returned false)
      | (b2, Option.none) => ({ b2 with is_solved := true }, SolveOutcome.returned true)

/-- Model of `CircuitBoard.set_perch_data`: sequential point writes (a
failing write keeps the earlier ones), then the empty-perches flag update
and a solvability recheck. -/
def CircuitBoard.setPerchData (b : CircuitBoard) (perch_name : String)
    (data : List (String × PyVal)) : CircuitBoard × Option PyErr :=
  match b.getPerch? perch_name with
  | Option.none => (b, some (PyErr.unknownPerch perch_name))
  | some p =>
    match go p data with
    | Except.error (q, err) => (b.putPerch perch_name q, some err)
    | Except.ok q =>
      let b1 := b.putPerch perch_name q
      let b2 := if data.isEmpty then b1 else { b1 with has_empty_perches := false }
      (b2.checkSolvability, Option.none)
where
  go : Perch → List (String × PyVal) → Except (Perch × PyErr) Perch
  | q, [] => Except.ok q
  | q, (k, v) :: rest =>
    match q.setData k v with
    | Except.ok q2 => go q2 rest
    | Except.error err => Except.error (q, err)

/-- The parameter names of `CircuitBoard.solve` as defined in the source:
`def solve(self)` declares no parameter besides self. -/
def solveParamNames : List String := []

/-- Model of calling the bound method `solve` with keyword arguments, as
the package convenience constructors do: Python raises TypeError for a
keyword that is not among the declared parameters, before the body runs. -/
def CircuitBoard.callSolveWithKeywords (b : CircuitBoard) (kwargs : List String) :
    CircuitBoard × SolveOutcome :=
  match kwargs.find? (fun k => !solveParamNames.contains k) with
  | some k => (b, SolveOutcome.raised (PyErr.typeErrorUnexpectedKwarg k))
  | Option.none => b.solve

/-- One round of forward closure along the edge list: append every edge
target whose source is already reached. -/
def reachStep (edges : List (String × String)) (visited : List String) : List String :=
  edges.foldl
    (fun acc e => if acc.contains e.1 && !acc.contains e.2 then acc ++ [e.2] else acc)
    visited

/-- Nodes reachable from a start node along the edge list, by iterating the
closure step; `fuel` rounds suffice when it is at least the node count. The
start node is always reachable from itself, as in `networkx.has_path`. -/
def reachFrom (edges : List (String × String)) (start : String) : Nat → List String
  | 0 => [start]
  | n + 1 => reachStep edges (reachFrom edges start n)

/-- Breadth-first search by path frontier (each frontier entry is a reversed
path): the model of `networkx.shortest_path`, returning a minimum-length
path. -/
def bfsPath (edges : List (String × String)) :
    Nat → List (List String) → String → Option (List String)
  | 0, _, _ => Option.none
  | fuel + 1, frontier, target =>
    match frontier.find? (fun p => p.headD "" == target) with
    | some p => some p.reverse
    | Option.none =>
      let expanded := frontier.flatMap (fun p =>
        (edges.filter (fun e => e.1 == p.headD "")).map (fun e => e.2 :: p))
      bfsPath edges fuel expanded target

/-- Shortest path between two nodes, or none when unreachable. -/
def shortestPath (edges : List (String × String)) (bound : Nat) (s t : String) :
    Option (List String) :=
  bfsPath edges (bound + 1) [[s]] t

/-- Insert a direction-tagged edge into the combined graph, overwriting the
tag of a repeated (source, target) pair as `DiGraph.add_edge` does. -/
def addTaggedEdge (es : List (String × String × String)) (u v tag : String) :
    List (String × String × String) :=
  if es.any (fun e => e.1 == u && e.2.1 == v) then
    es.map (fun e => if e.1 == u && e.2.1 == v then (u, v, tag) else e)
  else es ++ [(u, v, tag)]

/-- The combined graph built by the eulerian module: the nodes of the
backward graph, the backward edges tagged backward, then the forward edges
tagged forward. -/
def CircuitBoard.combinedGraph (b : CircuitBoard) :
    List String × List (String × String × String) :=
  let es := b.backward_graph.edges.foldl
    (fun acc e => addTaggedEdge acc e.1 e.2.1 "backward") []
  let es := b.forward_graph.edges.foldl
    (fun acc e => addTaggedEdge acc e.1 e.2.1 "forward") es
  (b.backward_graph.nodes, es)

/-- Model of `find_backward_forward_path`: collect the nodes reachable from
the start along backward-tagged edges (a singleton in the instance this
development evaluates, so the unspecified Python set iteration order is
immaterial), and for the first such node that reaches the start along
forward-tagged edges, return the backward leg concatenated with the forward
leg minus its duplicated first node. -/
def findBackwardForwardPath (nodes : List String)
    (ces : List (String × String × String)) (start : String) : Option (List String) :=
  let bes := (ces.filter (fun e => e.2.2 == "backward")).map (fun e => (e.1, e.2.1))
  let fes := (ces.filter (fun e => e.2.2 == "forward")).map (fun e => (e.1, e.2.1))
  let reachable := nodes.filter (fun n => (reachFrom bes start nodes.length).contains n)
  reachable.findSome? (fun ip =>
    if (reachFrom fes ip nodes.length).contains start then
      match shortestPath bes nodes.length start ip,
          shortestPath fes nodes.length ip start with
      | some bp, some fp => some (bp ++ fp.tail)
      | _, _ => Option.none
    else Option.none)

/-- Model of `is_eulerian_circuit`: both edge sets nonempty, a backward
terminal perch exists, every combined-graph node has equal in- and
out-degree, the combined graph is strongly connected, and some terminal
perch admits a backward-then-forward round trip. -/
def CircuitBoard.isEulerianCircuit (b : CircuitBoard) : Bool :=
  if b.backward_graph.edges.isEmpty || b.forward_graph.edges.isEmpty then false
  else
    let terminals := b.getTerminalPerches "backward"
    if terminals.isEmpty then false
    else
      let nodesEdges := b.combinedGraph
      let nodes := nodesEdges.1
      let pairs := nodesEdges.2.map (fun e => (e.1, e.2.1))
      if !nodes.all (fun n =>
          (pairs.filter (fun e => e.2 == n)).length
            == (pairs.filter (fun e => e.1 == n)).length) then false
      else if !nodes.all (fun u => nodes.all (fun v =>
          (reachFrom pairs u nodes.length).contains v)) then false
      else terminals.any (fun t => (findBackwardForwardPath nodes nodesEdges.2 t).isSome)

/-- Model of `find_eulerian_path`: both edge sets nonempty and some backward
terminal perch admits a round trip, whose concrete node list is returned. -/
def CircuitBoard.findEulerianPath (b : CircuitBoard) : Option (List String) :=
  if b.backward_graph.edges.isEmpty || b.forward_graph.edges.isEmpty then Option.none
  else
    let nodesEdges := b.combinedGraph
    let terminals := b.getTerminalPerches "backward"
    if terminals.isEmpty then Option.none
    else terminals.findSome? (fun t =>
      findBackwardForwardPath nodesEdges.1 nodesEdges.2 t)

/-- Unwrap a successful construction; the fallback is never reached in the
concrete fixtures below. -/
def buildOr (x : Except PyErr CircuitBoard) : CircuitBoard :=
  match x with
  | Except.ok b => b
  | Except.error _ => CircuitBoard.init "failed"

/-- A perch schema holding the legacy comp and sim slots (the constructor
appends up and down). -/
def compSimSchema : List (String × PyVal) :=
  [("comp", PyVal.none), ("sim", PyVal.none)]

/-- No keyword argument passed to `add_mover`. -/
def noKeys : Option String := Option.none

/-- No dictionary argument passed to `add_mover`. -/
def noDict : Option (List (String × PyVal)) := Option.none

/-- Fixture for the default-key claim: two default perches and one forward
plus one backward mover added without any explicit key arguments. -/
def defaultKeysBoard : CircuitBoard :=
  buildOr (do
    let b := CircuitBoard.init "defaults"
    let b ← b.addPerch (Perch.init "A" Option.none)
    let b ← b.addPerch (Perch.init "B" Option.none)
    let b ← b.addMover "A" "B" noDict noDict noDict noKeys Option.none noKeys "forward"
    let b ← b.addMover "B" "A" noDict noDict noDict noKeys Option.none noKeys "backward"
    pure b)

/-- Fixture for the Eulerian claim: the 3-node ring with backward movers
B to A and C to B and forward movers A to B and B to C, perch A seeded with
comp and sim values as in the repository example. -/
def euler3Board : CircuitBoard :=
  buildOr (do
    let b := CircuitBoard.init "EulerianExample"
    let b ← b.addPerch (Perch.init "A"
      (some [("comp", PyVal.arr [10, 5]), ("sim", PyVal.arr [1, 1])]))
    let b ← b.addPerch (Perch.init "B" (some compSimSchema))
    let b ← b.addPerch (Perch.init "C" (some compSimSchema))
    let b ← b.addMover "B" "A" noDict noDict noDict (some "comp") Option.none (some "comp") "backward"
    let b ← b.addMover "C" "B" noDict noDict noDict (some "comp") Option.none (some "comp") "backward"
    let b ← b.addMover "A" "B" noDict noDict noDict (some "sim") Option.none (some "sim") "forward"
    let b ← b.addMover "B" "C" noDict noDict noDict (some "sim") Option.none (some "sim") "forward"
    pure b)

/-- Fixture for the solved-flag claim: perches A and B, one backward mover
from A to B that never receives a comp callable, A seeded with up, down and
comp values, model finalized. Solving leaves B without an up value. -/
def partialBoard : CircuitBoard :=
  let b := buildOr (do
    let b := CircuitBoard.init "partial"
    let b ← b.addPerch (Perch.init "A" (some compSimSchema))
    let b ← b.addPerch (Perch.init "B" (some compSimSchema))
    let b ← b.addMover "A" "B" noDict noDict noDict noKeys Option.none noKeys "backward"
    pure b)
  let b := (b.setPerchData "A"
    [("up", PyVal.int 1), ("down", PyVal.int 1), ("comp", PyVal.int 1)]).1
  b.finalizeModel

/-- Fixture for the solvable-flag claim: a finalized solvable board mutated
structurally afterwards (a forward mover is added), which resets the
finalized flag. -/
def mutatedBoard : CircuitBoard :=
  let b := buildOr (do
    let b := CircuitBoard.init "mutated"
    let b ← b.addPerch (Perch.init "A" (some compSimSchema))
    let b ← b.addPerch (Perch.init "B" (some compSimSchema))
    let b ← b.addMover "A" "B" noDict noDict noDict noKeys Option.none noKeys "backward"
    pure b)
  let b := (b.setPerchData "A" [("up", PyVal.int 1)]).1
  let b := b.finalizeModel
  buildOr (b.addMover "A" "B" noDict noDict noDict noKeys Option.none noKeys "forward")

/-- Fixture for the cyclic-backward claim: two perches with backward movers
in both directions, A seeded with an up value. -/
def cyclicBoard : CircuitBoard :=
  let b := buildOr (do
    let b := CircuitBoard.init "cyclic"
    let b ← b.addPerch (Perch.init "A" (some compSimSchema))
    let b ← b.addPerch (Perch.init "B" (some compSimSchema))
    let b ← b.addMover "A" "B" noDict noDict noDict noKeys Option.none noKeys "backward"
    let b ← b.addMover "B" "A" noDict noDict noDict noKeys Option.none noKeys "backward"
    pure b)
  (b.setPerchData "A" [("up", PyVal.int 1), ("comp", PyVal.int 1)]).1

/-- A transform callable that always raises. -/
def raisingComp : Comp := fun _ => Except.error ()

/-- Fixture for the error-propagation claim: a backward mover from A to B
whose comp always raises, with A seeded so the edge is eligible to fire. -/
def raisingBoard : CircuitBoard :=
  let b := buildOr (do
    let b := CircuitBoard.init "raising"
    let b ← b.addPerch (Perch.init "A" (some compSimSchema))
    let b ← b.addPerch (Perch.init "B" (some compSimSchema))
    let b ← b.addMover "A" "B" noDict noDict noDict noKeys Option.none noKeys "backward"
    let b ← b.setMoverComp "A" "B" "backward" raisingComp
    pure b)
  (b.setPerchData "A" [("up", PyVal.int 1), ("comp", PyVal.int 1)]).1

/-- A transform callable that returns the absent value None. -/
def noneComp : Comp := fun _ => Except.ok PyVal.none

/-- Fixture for the frame claim: a forward mover from A to B whose comp
returns None. -/
def noneResultBoard : CircuitBoard :=
  buildOr (do
    let b := CircuitBoard.init "noneResult"
    let b ← b.addPerch (Perch.init "A" (some compSimSchema))
    let b ← b.addPerch (Perch.init "B" (some compSimSchema))
    let b ← b.addMover "A" "B" noDict noDict noDict noKeys Option.none noKeys "forward"
    let b ← b.setMoverComp "A" "B" "forward" noneComp
    pure b)

end CircuitCraft

open CircuitCraft

/-- Claim C1. The spec states that solve accepts optional backwardOnly and
forwardOnly restriction flags (failing with ConflictingFlags when both are
set). The source defines solve with no parameter besides self, so the calls
the package itself makes with these keywords — step 5 of
create_and_solve_backward_circuit and of create_and_solve_forward_circuit —
raise TypeError before any solving logic runs. -/
theorem c1_solve_rejects_restriction_kwargs : ∀ b : CircuitBoard,
    b.callSolveWithKeywords ["backward_only"]
      = (b, SolveOutcome.raised (PyErr.typeErrorUnexpectedKwarg "backward_only")) ∧
    b.callSolveWithKeywords ["forward_only"]
      = (b, SolveOutcome.raised (PyErr.typeErrorUnexpectedKwarg "forward_only")) :=
  fun _ => ⟨rfl, rfl⟩

/-- Claim C2. A forward mover added without explicit keys defaults to
source keys sim only and target key sim, not to the comp-and-sim pair that
the claim (and the docstring of add_mover itself) states; the backward
defaults comp and comp are as claimed. -/
theorem c2_forward_default_source_keys :
    (defaultKeysBoard.forward_graph.getMover "A" "B").map Mover.source_keys
      = some ["sim"] ∧
    ¬ ((defaultKeysBoard.forward_graph.getMover "A" "B").map Mover.source_keys
      = some ["comp", "sim"]) ∧
    (defaultKeysBoard.forward_graph.getMover "A" "B").map (fun m => m.target_key)
      = some (some "sim") ∧
    (defaultKeysBoard.backward_graph.getMover "B" "A").map Mover.source_keys
      = some ["comp"] ∧
    (defaultKeysBoard.backward_graph.getMover "B" "A").map (fun m => m.target_key)
      = some (some "comp") := by
  refine ⟨rfl, ?_, rfl, rfl, rfl⟩
  intro h
  rw [show (defaultKeysBoard.forward_graph.getMover "A" "B").map Mover.source_keys
    = some ["sim"] from rfl] at h
  simp at h

/-- Claim C3, counterexample. On the 3-node ring with backward edges C to B
and B to A and forward edges A to B and B to C, findEulerianPath does not
return a path of five perch names: the only backward terminal perch is A,
which has no outgoing backward edge, so the search returns the trivial
round trip of length one. -/
theorem c3_no_length_five_path :
    ¬ ∃ p : List String, euler3Board.findEulerianPath = some p ∧ p.length = 5 := by
  rintro ⟨p, hp, hl⟩
  rw [show euler3Board.findEulerianPath = some ["A"] from rfl] at hp
  injection hp with h
  subst h
  simp at hl

/-- Claim C3, amended. On the 3-node ring, isEulerianCircuit returns true,
and findEulerianPath returns the single-node path at A — a path of length
one starting and ending at A, since the terminal perch A has no outgoing
backward edge and therefore admits only the trivial backward leg. -/
theorem c3_eulerian_true_trivial_path :
    euler3Board.isEulerianCircuit = true ∧
    euler3Board.findEulerianPath = some ["A"] :=
  ⟨rfl, rfl⟩

/-- Claim C4, counterexample. A finalized solvable board whose only
backward mover carries no comp callable: solve completes, returns True and
sets the solved flag even though perch B never receives an up value. -/
theorem c4_solve_sets_solved_with_missing_up :
    (partialBoard.solve).2 = SolveOutcome.returned true ∧
    (partialBoard.solve).1.is_solved = true ∧
    ((partialBoard.solve).1.getPerch? "B").map Perch.upVal = some PyVal.none :=
  ⟨rfl, rfl, rfl⟩

/-- Claim C6, counterexample. A finalized solvable board mutated
structurally afterwards: the finalized flag is cleared but the solvable
flag remains true, contradicting the claimed equivalence (which requires
solvable to imply finalized). -/
theorem c6_solvable_true_after_structural_mutation :
    mutatedBoard.is_solvable = true ∧ mutatedBoard.has_model = false :=
  ⟨rfl, rfl⟩

/-- A nonempty set of nodes in which every node has a predecessor inside
the set (the node set of any directed cycle is such a set) keeps the Kahn
worker from ever removing one of its members, so the sort fails. -/
theorem kahnAux_none_of_cycle (edges : List (String × String)) (c : List String)
    (hne : c ≠ []) (hcyc : ∀ n ∈ c, ∃ p ∈ c, (p, n) ∈ edges) :
    ∀ fuel remaining acc, (∀ n ∈ c, n ∈ remaining) →
      kahnAux edges fuel remaining acc = Option.none := by
  intro fuel
  induction fuel with
  | zero =>
    intro remaining acc hsub
    obtain ⟨n0, hn0⟩ := List.exists_mem_of_ne_nil c hne
    have hmem := hsub n0 hn0
    have hre : remaining.isEmpty = false := by
      cases remaining with
      | nil => cases hmem
      | cons a l => rfl
    simp [kahnAux, hre]
  | succ fuel ih =>
    intro remaining acc hsub
    obtain ⟨n0, hn0⟩ := List.exists_mem_of_ne_nil c hne
    have hmem := hsub n0 hn0
    have hre : remaining.isEmpty = false := by
      cases remaining with
      | nil => cases hmem
      | cons a l => rfl
    cases hfind : remaining.find? (fun n => !hasIncomingFrom edges remaining n) with
    | none => simp [kahnAux, hre, hfind]
    | some n =>
      have hpred := List.find?_some hfind
      have hnotin : n ∉ c := by
        intro hin
        obtain ⟨p, hp, hedge⟩ := hcyc n hin
        have hpin : p ∈ remaining := hsub p hp
        have hinc : hasIncomingFrom edges remaining n = true := by
          unfold hasIncomingFrom
          refine List.any_eq_true.mpr ⟨(p, n), hedge, ?_⟩
          simpa [List.contains, List.elem_iff] using hpin
        simp [hinc] at hpred
      have hsub2 : ∀ m ∈ c, m ∈ remaining.erase n := by
        intro m hm
        have hmr := hsub m hm
        have hne2 : m ≠ n := fun h => hnotin (h ▸ hm)
        exact (List.mem_erase_of_ne hne2).mpr hmr
      calc kahnAux edges (fuel + 1) remaining acc
          = kahnAux edges fuel (remaining.erase n) (n :: acc) := by
            simp [kahnAux, hre, hfind]
        _ = Option.none := ih (remaining.erase n) (n :: acc) hsub2

/-- Claim C5. On a board satisfying the backward-mover and initial
up-value preconditions whose backward edge set carries a directed cycle
(witnessed by a nonempty node set each of whose members has an in-set
predecessor along a backward edge), solveBackward raises the cyclic-graph
error and returns the board completely unchanged: the failing topological
sort precedes every mutation. -/
theorem c5_cyclic_backward_fails_unchanged (b : CircuitBoard) (c : List String)
    (hm : b.movers_backward_exist = true)
    (hc : b.anyPerchComp = true)
    (hne : c ≠ [])
    (hsub : ∀ n ∈ c, n ∈ b.backward_graph.nodes)
    (hcyc : ∀ n ∈ c, ∃ p ∈ c, (p, n) ∈ b.backward_graph.edgePairs) :
    b.solveBackward = (b, some PyErr.cyclicBackwardGraph) := by
  have htopo : topoSort b.backward_graph.nodes b.backward_graph.edgePairs
      = Option.none :=
    kahnAux_none_of_cycle _ c hne hcyc _ _ _ hsub
  unfold CircuitBoard.solveBackward
  simp [hm, hc, topoSort] at htopo ⊢
  simp [htopo]

/-- Claim C5, witness: the two-perch board with backward movers in both
directions and an up value on A. -/
theorem c5_cyclic_backward_fails_unchanged_witness :
    cyclicBoard.solveBackward = (cyclicBoard, some PyErr.cyclicBackwardGraph) :=
  c5_cyclic_backward_fails_unchanged cyclicBoard ["A", "B"] rfl rfl
    (by decide) (by decide) (by decide)

/-- Claim C8, counterexample. A backward mover whose transform always
raises: executing the edge directly propagates the failure, yet
solveBackward on the same board returns normally with no raised error —
the convergence loop catches the exception, prints it and moves on. -/
theorem c8_transform_failure_suppressed :
    (raisingBoard.solveBackward).2 = Option.none ∧
    raisingBoard.executeMover "A" "B" "backward" = Except.error PyErr.userExc :=
  ⟨rfl, rfl⟩

/-- An error value is never a success value (elimination helper). -/
theorem errNeOk {ε α : Type} {e : ε} {v : α} {C : Prop}
    (h : (Except.error e : Except ε α) = Except.ok v) : C :=
  Except.noConfusion h

/-- A pair carrying a raised error never equals one carrying none
(elimination helper). -/
theorem pairSomeNeNone {α : Type} {x y : α} {e : PyErr} {C : Prop}
    (h : (x, some e) = (y, (Option.none : Option PyErr))) : C := by
  injection h with h1 h2
  exact Option.noConfusion h2

/-- Storing a perch back touches only the perch dictionary. -/
theorem putPerch_is_solved (b : CircuitBoard) (n : String) (p : Perch) :
    (b.putPerch n p).is_solved = b.is_solved := rfl

/-- The write-back step of execute_mover never touches the solved flag. -/
theorem applyMoverResult_is_solved {b : CircuitBoard} {tn : String} {tp : Perch}
    {m : Mover} {r : PyVal} {b2 : CircuitBoard} {r2 : PyVal}
    (h : applyMoverResult b tn tp m r = Except.ok (b2, r2)) :
    b2.is_solved = b.is_solved := by
  unfold applyMoverResult at h
  repeat' split at h
  all_goals first
    | exact errNeOk h
    | (simp only [Except.ok.injEq, Prod.mk.injEq] at h
       obtain ⟨h1, h2⟩ := h
       subst h1
       rfl)

/-- Executing a single mover never touches the solved flag. -/
theorem executeMover_is_solved {b : CircuitBoard} {s t et : String}
    {b2 : CircuitBoard} {r : PyVal}
    (h : b.executeMover s t et = Except.ok (b2, r)) :
    b2.is_solved = b.is_solved := by
  unfold CircuitBoard.executeMover at h
  repeat' split at h
  all_goals try dsimp only at h
  all_goals repeat' split at h
  all_goals first
    | exact errNeOk h
    | exact applyMoverResult_is_solved h

/-- The backward sweep worker never touches the solved flag. -/
theorem backwardSweep_go_is_solved :
    ∀ (es : List (String × String × Mover)) (b : CircuitBoard) (ch : Bool),
      ((CircuitBoard.backwardSweep.go es b ch).1).is_solved = b.is_solved := by
  intro es
  induction es with
  | nil => intro b ch; rfl
  | cons e rest ih =>
    intro b ch
    unfold CircuitBoard.backwardSweep.go
    repeat' split
    all_goals first
      | rfl
      | exact ih _ _
      | (rw [ih]; exact executeMover_is_solved (by assumption))

/-- One backward sweep never touches the solved flag. -/
theorem backwardSweep_is_solved (b : CircuitBoard) :
    ((b.backwardSweep).1).is_solved = b.is_solved :=
  backwardSweep_go_is_solved b.backward_graph.edges b false

/-- The whole backward convergence loop never touches the solved flag. -/
theorem backwardLoop_is_solved :
    ∀ (fuel : Nat) (b : CircuitBoard),
      ((CircuitBoard.backwardLoop fuel b).1).is_solved = b.is_solved := by
  intro fuel
  induction fuel with
  | zero => intro b; rfl
  | succ n ih =>
    intro b
    have hsw := backwardSweep_is_solved b
    unfold CircuitBoard.backwardLoop
    split
    all_goals rename_i heq
    · rw [heq] at hsw; exact hsw
    · rw [heq] at hsw; rw [ih]; exact hsw
    · rw [heq] at hsw; exact hsw

/-- The epilogue of solve_backward sets the solved flag exactly when every
perch holds an up value, changes nothing else, and never raises. -/
theorem finishBackward_is_solved (c : CircuitBoard) :
    ((finishBackward c).1).is_solved = (c.is_solved || c.allPerchComp) ∧
    ((finishBackward c).1).allPerchComp = c.allPerchComp ∧
    (finishBackward c).2 = Option.none := by
  unfold finishBackward
  split
  · rename_i hc
    refine ⟨?_, rfl, rfl⟩
    simp [hc]
  · rename_i hc
    refine ⟨?_, rfl, rfl⟩
    simp [Bool.not_eq_true] at hc
    simp [hc]

/-- Claim C4, amended. Within solveBackward the claim holds: when the call
returns without raising, the solved flag is set (beyond its previous value)
exactly when every perch holds an initialized up value — the convergence
loop itself never touches the flag. The original claim fails only because
the combined solve() afterwards sets the flag unconditionally, as the
counterexample shows. -/
theorem c4_solve_backward_solved_iff_all_up (b b2 : CircuitBoard)
    (h : b.solveBackward = (b2, Option.none)) :
    b2.is_solved = (b.is_solved || b2.allPerchComp) := by
  unfold CircuitBoard.solveBackward at h
  repeat' split at h
  all_goals first
    | exact pairSomeNeNone h
    | skip
  rename_i bl heq
  obtain ⟨h1, h2, h3⟩ := finishBackward_is_solved bl
  have hb2 : (finishBackward bl).1 = b2 := by rw [h]
  have hloop := backwardLoop_is_solved 100 b
  rw [heq] at hloop
  rw [← hb2, h1, h2]
  rw [show bl.is_solved = b.is_solved from hloop]

/-- Claim C4, witness: the partially solvable fixture, on which
solveBackward returns without raising and without setting the flag. -/
theorem c4_solve_backward_solved_iff_all_up_witness :
    ((partialBoard.solveBackward).1).is_solved
      = (partialBoard.is_solved || ((partialBoard.solveBackward).1).allPerchComp) :=
  c4_solve_backward_solved_iff_all_up partialBoard (partialBoard.solveBackward).1 rfl

/-- Claim C10. When a single-edge execution succeeds and the transform
returned the absent value None, the board — in particular the target perch
and its set of initialized keys — is left entirely unchanged. -/
theorem c10_none_result_leaves_target_unchanged
    (b : CircuitBoard) (source_name target_name edge_type : String)
    (b2 : CircuitBoard)
    (h : b.executeMover source_name target_name edge_type
      = Except.ok (b2, PyVal.none)) :
    b2 = b ∧
    b2.getPerch? target_name = b.getPerch? target_name ∧
    (b2.getPerch? target_name).map Perch.initializedKeys
      = (b.getPerch? target_name).map Perch.initializedKeys := by
  have hb : b2 = b := by
    unfold CircuitBoard.executeMover at h
    repeat' split at h
    all_goals try dsimp only at h
    all_goals repeat' split at h
    all_goals first
      | exact errNeOk h
      | (unfold applyMoverResult at h
         repeat' split at h
         all_goals first
           | exact errNeOk h
           | simp_all)
  exact ⟨hb, by rw [hb], by rw [hb]⟩

/-- Claim C10, witness: the fixture whose forward mover comp returns
None. -/
theorem c10_none_result_leaves_target_unchanged_witness :
    noneResultBoard = noneResultBoard ∧
    noneResultBoard.getPerch? "B" = noneResultBoard.getPerch? "B" ∧
    (noneResultBoard.getPerch? "B").map Perch.initializedKeys
      = (noneResultBoard.getPerch? "B").map Perch.initializedKeys :=
  c10_none_result_leaves_target_unchanged noneResultBoard "A" "B" "forward"
    noneResultBoard rfl

/-- Claim C6, amended. The solvability recheck is monotone: it sets the
flag to true exactly when the model is finalized, backward data is
available (no backward movers or some perch has an up value) and forward
data is available (no forward edges or some forward-initial perch has a
down value) — but it never clears the flag, so after structural mutation
the flag keeps its old value while the finalized flag is cleared; the
counterexample exhibits a reachable state with solvable true and finalized
false, refuting the claimed equivalence. -/
theorem c6_check_solvability_monotone (b : CircuitBoard) :
    (b.checkSolvability).is_solvable
      = ((b.has_model
          && (!b.movers_backward_exist || b.anyPerchComp)
          && (b.forward_graph.edges.isEmpty || b.forwardInitHasDown))
        || b.is_solvable) ∧
    (b.checkSolvability).has_model = b.has_model := by
  unfold CircuitBoard.checkSolvability
  cases hm : b.has_model <;>
    cases hme : b.movers_backward_exist <;>
      cases hac : b.anyPerchComp <;>
        cases hfe : b.forward_graph.edges.isEmpty <;>
          cases hfi : b.forwardInitHasDown <;>
            simp [hm, hme, hac, hfe, hfi]

/-- The portability recheck touches only the portability flag and sets it
true exactly when no mover of either edge set has a map without a comp. -/
theorem checkPortability_spec (c : CircuitBoard) :
    (c.checkPortability).backward_graph = c.backward_graph ∧
    (c.checkPortability).forward_graph = c.forward_graph ∧
    ((c.checkPortability).is_portable = true ↔
      ∀ e ∈ c.backward_graph.edges ++ c.forward_graph.edges,
        moverNeedsComp e.2.2 = false) := by
  unfold CircuitBoard.checkPortability
  cases hf : (c.backward_graph.edges ++ c.forward_graph.edges).find?
      (fun e => moverNeedsComp e.2.2) with
  | none =>
    refine ⟨rfl, rfl, ?_⟩
    simp only [true_iff]
    intro e he
    have := List.find?_eq_none.mp hf e he
    simpa [Bool.not_eq_true] using this
  | some e0 =>
    refine ⟨rfl, rfl, ?_⟩
    constructor
    · intro hP; exact absurd hP (by simp)
    · intro hall
      have h1 := List.find?_some hf
      have h2 := List.mem_of_find?_eq_some hf
      rw [hall e0 h2] at h1
      cases h1

/-- Claim C7. deriveAllTransforms maps every mover of both edge sets
through the derivation step — which invokes the factory exactly on movers
with a map but no comp and leaves all others untouched — and afterwards
the portability flag is true precisely when no mover remains with a map
but no comp. -/
theorem c7_derive_all_transforms (b : CircuitBoard) (factory : PyVal → Option Comp) :
    (b.createCompsFromMaps factory).backward_graph.edges
        = b.backward_graph.edges.map (deriveStep factory) ∧
    (b.createCompsFromMaps factory).forward_graph.edges
        = b.forward_graph.edges.map (deriveStep factory) ∧
    ((b.createCompsFromMaps factory).is_portable = true ↔
      ∀ e ∈ (b.createCompsFromMaps factory).backward_graph.edges
          ++ (b.createCompsFromMaps factory).forward_graph.edges,
        moverNeedsComp e.2.2 = false) := by
  obtain ⟨hb, hfwd, hport⟩ := checkPortability_spec { b with
    backward_graph := { b.backward_graph with
      edges := b.backward_graph.edges.map (deriveStep factory) }
    forward_graph := { b.forward_graph with
      edges := b.forward_graph.edges.map (deriveStep factory) } }
  unfold CircuitBoard.createCompsFromMaps
  refine ⟨?_, ?_, ?_⟩
  · rw [hb]
  · rw [hfwd]
  · rw [hb, hfwd]
    exact hport

/-- Claim C8, amended. Lifecycle precondition violations are raised
synchronously by solve, and they are the only errors it ever raises: an
error arising inside either solving pass — including a transform failure
while an edge executes — is caught, logged and converted into a normal
False return (within solveBackward the loop even swallows the failure and
continues, as the counterexample shows). -/
theorem c8_solve_raises_only_preconditions (b b2 : CircuitBoard) (e : PyErr)
    (h : b.solve = (b2, SolveOutcome.raised e)) :
    e = PyErr.notFinalized ∨ e = PyErr.notSolvable := by
  unfold CircuitBoard.solve at h
  repeat' split at h
  all_goals injection h with h1 h2
  all_goals first
    | exact SolveOutcome.noConfusion h2
    | (injection h2 with h3
       first
         | exact Or.inl h3.symm
         | exact Or.inr h3.symm)

/-- Claim C8, witness: a freshly constructed board raises the
not-finalized precondition error. -/
theorem c8_solve_raises_only_preconditions_witness :
    PyErr.notFinalized = PyErr.notFinalized ∨
    PyErr.notFinalized = PyErr.notSolvable :=
  c8_solve_raises_only_preconditions (CircuitBoard.init "w")
    (CircuitBoard.init "w") PyErr.notFinalized rfl

/-- Key presence distributes over dict concatenation. -/
theorem alistHas_append (l1 l2 : List (String × PyVal)) (k : String) :
    alistHas (l1 ++ l2) k = (alistHas l1 k || alistHas l2 k) := by
  simp [alistHas, List.any_append]

/-- Overwriting a key never removes another key from a dict. -/
theorem alistHas_alistSet_of (d : List (String × PyVal)) (k : String) (v : PyVal)
    (k2 : String) (h : alistHas d k2 = true) :
    alistHas (alistSet d k v) k2 = true := by
  unfold alistSet
  split
  · unfold alistHas at h ⊢
    obtain ⟨kv, hmem, hk⟩ := List.any_eq_true.mp h
    refine List.any_eq_true.mpr
      ⟨(if kv.1 == k then (kv.1, v) else kv), List.mem_map_of_mem _ hmem, ?_⟩
    by_cases hc : (kv.1 == k) = true
    · simp [hc, hk]
    · simp only [hc, if_false]
      exact hk
  · rw [alistHas_append]
    simp [h]

/-- Ensuring a reserved key makes it present. -/
theorem alistHas_ensureKey_self (d : List (String × PyVal)) (k : String) :
    alistHas (ensureKey d k) k = true := by
  unfold ensureKey
  split
  · assumption
  · rw [alistHas_append]
    simp [alistHas]

/-- Ensuring a reserved key keeps every key already present. -/
theorem alistHas_ensureKey_of (d : List (String × PyVal)) (k k2 : String)
    (h : alistHas d k2 = true) : alistHas (ensureKey d k) k2 = true := by
  unfold ensureKey
  split
  · exact h
  · rw [alistHas_append]
    simp [h]

/-- The clearing loop of clear_data keeps every key present. -/
theorem clear_foldl_keeps (k2 : String) :
    ∀ (keys : List String) (p : Perch), alistHas p.data k2 = true →
      alistHas ((keys.foldl Perch.clearStep p).data) k2 = true := by
  intro keys
  induction keys with
  | nil => intro p h; exact h
  | cons a rest ih =>
    intro p h
    simp only [List.foldl_cons]
    apply ih
    unfold Perch.clearStep
    split
    · exact alistHas_alistSet_of _ _ _ _ h
    · exact h

/-- Every public perch mutation keeps every schema key present: writes
overwrite in place, clears reset values only, failed operations leave the
perch unchanged, and new keys only extend the schema. -/
theorem perch_applyOp_keeps (p : Perch) (op : PerchOp) (k2 : String)
    (h : alistHas p.data k2 = true) :
    alistHas ((p.applyOp op).data) k2 = true := by
  cases op with
  | setData k v =>
    simp only [Perch.applyOp]
    cases hq : p.setData k v with
    | ok q =>
      simp only [hq]
      unfold Perch.setData at hq
      split at hq
      · injection hq with hq1
        subst hq1
        exact alistHas_alistSet_of _ _ _ _ h
      · exact errNeOk hq
    | error e =>
      simp only [hq]
      exact h
  | addDataKey k v =>
    simp only [Perch.applyOp]
    cases hq : p.addDataKey k v with
    | ok q =>
      simp only [hq]
      unfold Perch.addDataKey at hq
      split at hq
      · exact errNeOk hq
      · injection hq with hq1
        subst hq1
        show alistHas (p.data ++ [(k, v)]) k2 = true
        rw [alistHas_append]
        simp [h]
    | error e =>
      simp only [hq]
      exact h
  | clearData ks =>
    simp only [Perch.applyOp]
    unfold Perch.clearData
    exact clear_foldl_keeps k2 _ p h
  | setUp v =>
    simp only [Perch.applyOp]
    exact alistHas_alistSet_of p.data "up" v k2 h
  | setDown v =>
    simp only [Perch.applyOp]
    exact alistHas_alistSet_of p.data "down" v k2 h

/-- Any sequence of public perch mutations keeps every schema key present. -/
theorem perch_applyOps_keeps (ops : List PerchOp) :
    ∀ (p : Perch) (k2 : String), alistHas p.data k2 = true →
      alistHas ((p.applyOps ops).data) k2 = true := by
  induction ops with
  | nil => intro p k2 h; exact h
  | cons op rest ih =>
    intro p k2 h
    unfold Perch.applyOps
    simp only [List.foldl_cons]
    exact ih (p.applyOp op) k2 (perch_applyOp_keeps p op k2 h)

/-- The perch constructor always installs the reserved up and down keys. -/
theorem perch_init_has_up_down (name : String) (dt : Option (List (String × PyVal))) :
    alistHas (Perch.init name dt).data "up" = true ∧
    alistHas (Perch.init name dt).data "down" = true := by
  constructor
  · show alistHas (ensureKey (ensureKey _ "up") "down") "up" = true
    exact alistHas_ensureKey_of _ _ _ (alistHas_ensureKey_self _ _)
  · show alistHas (ensureKey (ensureKey _ "up") "down") "down" = true
    exact alistHas_ensureKey_self _ _

/-- Claim C9. A perch constructed with any schema contains the keys up and
down (the constructor inserts them when the supplied mapping omits them),
and after any sequence of public perch mutations both keys are still
present, so reading or writing the up or down key never fails with a
key-not-found error. -/
theorem c9_up_down_keys_always_present (name : String)
    (dt : Option (List (String × PyVal))) (ops : List PerchOp) (v w : PyVal) :
    alistHas ((Perch.init name dt).applyOps ops).data "up" = true ∧
    alistHas ((Perch.init name dt).applyOps ops).data "down" = true ∧
    (((Perch.init name dt).applyOps ops).getData "up").isOk = true ∧
    (((Perch.init name dt).applyOps ops).getData "down").isOk = true ∧
    (((Perch.init name dt).applyOps ops).setData "up" v).isOk = true ∧
    (((Perch.init name dt).applyOps ops).setData "down" w).isOk = true := by
  obtain ⟨h1, h2⟩ := perch_init_has_up_down name dt
  have hu := perch_applyOps_keeps ops (Perch.init name dt) "up" h1
  have hd := perch_applyOps_keeps ops (Perch.init name dt) "down" h2
  refine ⟨hu, hd, ?_, ?_, ?_, ?_⟩
  · unfold Perch.getData; rw [if_pos hu]; rfl
  · unfold Perch.getData; rw [if_pos hd]; rfl
  · unfold Perch.setData; rw [if_pos hu]; rfl
  · unfold Perch.setData; rw [if_pos hd]; rfl
